import Mathlib

/-!
Verification of the AstrBot repository sample: the PR test-environment shell
script (scripts/pr_test_env.sh) and the Skills dashboard component
(dashboard/src/components/extension/SkillsSection.vue), embedded shallowly.

Part 1 models the shell script: its option processing, the linear sequence of
steps it runs, and the run_smoke_test readiness loop.

Part 2 models the Vue component: the REST requests each operation issues, the
snackbar messages it shows, and the state it updates, as pure functions from
the operation's inputs and the network outcome to an effect record.
-/

namespace PrTestEnv

/-- The two test profiles accepted by the --profile option (any other value
makes the script exit with an error before running a step). -/
inductive Profile
  | neo
  | full
deriving DecidableEq, Repr

/-- The recognised command-line options of scripts/pr_test_env.sh.
An unknown option or an invalid profile value makes the script exit
immediately, so option lists containing them never reach the steps and are
not modelled. -/
inductive Opt
  | profile (p : Profile)
  | withDashboard
  | noDashboard
  | skipSync
  | skipLint
  | skipSmoke
deriving DecidableEq, Repr

/-- The script's flag variables: PROFILE, RUN_SYNC, RUN_LINT, RUN_SMOKE,
RUN_DASHBOARD. -/
structure Config where
  profile : Profile
  runSync : Bool
  runLint : Bool
  runSmoke : Bool
  runDashboard : Bool
deriving DecidableEq, Repr

/-- Initial values from lines 8-12 of the script: PROFILE=neo, RUN_SYNC=true,
RUN_LINT=true, RUN_SMOKE=true, RUN_DASHBOARD=false. -/
def initConfig : Config :=
  { profile := Profile.neo
    runSync := true
    runLint := true
    runSmoke := true
    runDashboard := false }

/-- One iteration of the while/case option loop (lines 33-73). -/
def applyOpt (c : Config) : Opt → Config
  | Opt.profile p => { c with profile := p }
  | Opt.withDashboard => { c with runDashboard := true }
  | Opt.noDashboard => { c with runDashboard := false }
  | Opt.skipSync => { c with runSync := false }
  | Opt.skipLint => { c with runLint := false }
  | Opt.skipSmoke => { c with runSmoke := false }

/-- The whole option loop over the argument list. -/
def processOpts (opts : List Opt) : Config :=
  opts.foldl applyOpt initConfig

/-- Lines 75-77: after option processing, a full profile with
RUN_DASHBOARD=false has RUN_DASHBOARD forced to true. -/
def applyFullProfileDefault (c : Config) : Config :=
  if c.profile = Profile.full && c.runDashboard = false then
    { c with runDashboard := true }
  else c

/-- The configuration in force when the steps start running. -/
def finalConfig (opts : List Opt) : Config :=
  applyFullProfileDefault (processOpts opts)

/-- The observable steps of the script's main sequence (lines 85-169),
in source order: uv sync, ruff format --check, ruff check, pytest (whose
argument set depends on the profile), the startup smoke test, and the
dashboard build. -/
inductive Step
  | uvSync
  | ruffFormat
  | ruffCheck
  | pytest (profile : Profile)
  | smoke
  | dashboard
deriving DecidableEq, Repr

/-- The source-order position of each step in the script. -/
def stepIndex : Step → Nat
  | Step.uvSync => 0
  | Step.ruffFormat => 1
  | Step.ruffCheck => 2
  | Step.pytest _ => 3
  | Step.smoke => 4
  | Step.dashboard => 5

/-- The steps a run of the script attempts, in the order the script's text
runs them: sync when RUN_SYNC (lines 85-88), the two ruff commands when
RUN_LINT (lines 95-100), pytest always (lines 102-114), the smoke test when
RUN_SMOKE (lines 157-159), the dashboard build when RUN_DASHBOARD
(lines 161-169). -/
def scriptSteps (c : Config) : List Step :=
  (if c.runSync then [Step.uvSync] else []) ++
  (if c.runLint then [Step.ruffFormat, Step.ruffCheck] else []) ++
  [Step.pytest c.profile] ++
  (if c.runSmoke then [Step.smoke] else []) ++
  (if c.runDashboard then [Step.dashboard] else [])

/-- Outcome of run_smoke_test (lines 116-155). -/
inductive SmokeResult
  | success
  | procExited
  | timedOut
  | curlMissing
deriving DecidableEq, Repr

/-- The function's shell return status. -/
def exitCode : SmokeResult → Nat
  | SmokeResult.success => 0
  | _ => 1

/-- The environment a run of run_smoke_test observes: whether curl is on the
PATH, whether the probe of attempt i succeeds (curl -sf http://localhost:6185),
and whether the application process is still alive when attempt i checks it
(kill -0 after a failed probe). -/
structure SmokeEnv where
  curlAvailable : Bool
  probeOk : Nat → Bool
  alive : Nat → Bool

/-- The for-loop of run_smoke_test (lines 130-147) over the remaining attempt
indices: each attempt probes once; on success it returns 0, on a failed probe
with the process gone it returns 1, otherwise it sleeps and retries; when the
attempts run out it returns 1. The second component counts probes performed. -/
def smokeLoop (env : SmokeEnv) : List Nat → SmokeResult × Nat
  | [] => (SmokeResult.timedOut, 0)
  | i :: rest =>
    if env.probeOk i then (SmokeResult.success, 1)
    else if env.alive i then
      let r := smokeLoop env rest
      (r.1, r.2 + 1)
    else (SmokeResult.procExited, 1)

/-- seq 1 60 gives 60 attempts; the model indexes them 0..59. -/
def smokeAttempts : List Nat := List.range 60

/-- run_smoke_test: fails at once when curl is missing (lines 117-120),
otherwise runs the 60-attempt probe loop. -/
def run_smoke_test (env : SmokeEnv) : SmokeResult × Nat :=
  if env.curlAvailable then smokeLoop env smokeAttempts
  else (SmokeResult.curlMissing, 0)

end PrTestEnv

namespace SkillsSection

/-- The i18n message keys the modelled operations show via showMessage, plus
a constructor for a message string taken from the server's response. -/
inductive MsgText
  | updateSuccess
  | updateFailed
  | sandboxPresetReadonly
  | deleteSuccess
  | deleteFailed
  | downloadSuccess
  | downloadFailed
  | neoLoadFailed
  | neoPromoteSuccess
  | neoPromoteFailed
  | neoRollbackSuccess
  | neoRollbackFailed
  | neoDeactivateSuccess
  | neoDeactivateFailed
  | neoRuntimeRequired
  | fromServer (s : String)
deriving DecidableEq, Repr

/-- The snackbar colour passed to showMessage. -/
inductive MsgColor
  | success
  | error
  | warning
deriving DecidableEq, Repr

/-- One showMessage call: the snackbar text and colour. -/
structure Msg where
  text : MsgText
  color : MsgColor
deriving DecidableEq, Repr

/-- The HTTP requests the modelled operations issue through axios, with the
request bodies and query parameters the component builds. -/
inductive Request
  | postSkillsUpdate (name : String) (active : Bool)
  | postSkillsDelete (name : String)
  | getSkillsDownload (name : String)
  | getNeoCandidates (skill_key status : Option String)
  | getNeoReleases (skill_key stage : Option String)
  | postNeoPromote (candidate_id : String) (stage : String) (sync_to_local : Bool)
  | postNeoRollback (release_id : String)
deriving DecidableEq, Repr

/-- The fields of an axios response body (res.data) that the component
inspects: status and message. A fulfilled axios promise always carries a
response object, so the res and res.data truthiness checks in
handleApiResponse hold on this type. -/
structure ApiResponse where
  status : Option String
  message : Option String
deriving DecidableEq, Repr

/-- Outcome of one awaited axios call: a response, or a rejected promise
(network failure or HTTP error status), which the component catches. -/
def Net (α : Type) : Type := Except Unit α

/-- res.data.status === "ok". -/
def apiOk (res : ApiResponse) : Bool := res.status == some "ok"

/-- (res && res.data && res.data.message) || failureMessageDefault: the
server's message when it is a truthy (non-empty) string, the given default
otherwise. -/
def failureText (res : ApiResponse) (failureMessageDefault : MsgText) : MsgText :=
  match res.message with
  | some m => if m = "" then failureMessageDefault else MsgText.fromServer m
  | none => failureMessageDefault

/-- handleApiResponse (lines 465-473): on status "ok" it shows the success
message and runs the onSuccess callback (the Bool component reports whether
the callback ran); otherwise it shows the server's message or the default,
in error colour. -/
def handleApiResponse (res : ApiResponse) (successMessage failureMessageDefault : MsgText) :
    Msg × Bool :=
  if apiOk res then ({ text := successMessage, color := MsgColor.success }, true)
  else ({ text := failureText res failureMessageDefault, color := MsgColor.error }, false)

/-- The fields of a local-mode skill the modelled operations read:
name, active, and source_type (absent when the backend omits it). -/
structure Skill where
  name : String
  active : Bool
  source_type : Option String
deriving DecidableEq, Repr

/-- isSandboxPresetSkill (line 444): skill?.source_type === "sandbox_only". -/
def isSandboxPresetSkill (skill : Skill) : Bool :=
  skill.source_type == some "sandbox_only"

/-- Effects of one toggleSkill call: the requests issued, the messages shown,
the skill object when the call returns, and the values written to
itemLoading[skill.name] in order. -/
structure ToggleResult where
  requests : List Request
  messages : List Msg
  skillAfter : Skill
  loadingTrace : List Bool
deriving DecidableEq, Repr

/-- toggleSkill (lines 501-521): a sandbox preset skill only gets the
readonly warning; otherwise the component POSTs /api/skills/update with
the negated active flag, flips skill.active exactly when the response
status is "ok", and shows updateFailed on a rejected request. -/
def toggleSkill (skill : Skill) (net : Net ApiResponse) : ToggleResult :=
  if isSandboxPresetSkill skill then
    { requests := []
      messages := [{ text := MsgText.sandboxPresetReadonly, color := MsgColor.warning }]
      skillAfter := skill
      loadingTrace := [] }
  else
    let nextActive := !skill.active
    match net with
    | Except.ok res =>
      let handled := handleApiResponse res MsgText.updateSuccess MsgText.updateFailed
      { requests := [Request.postSkillsUpdate skill.name nextActive]
        messages := [handled.1]
        skillAfter := if handled.2 then { skill with active := nextActive } else skill
        loadingTrace := [true, false] }
    | Except.error _ =>
      { requests := [Request.postSkillsUpdate skill.name nextActive]
        messages := [{ text := MsgText.updateFailed, color := MsgColor.error }]
        skillAfter := skill
        loadingTrace := [true, false] }

/-- The dialog state confirmDelete touches: skillToDelete and deleteDialog. -/
structure DialogState where
  skillToDelete : Option Skill
  deleteDialog : Bool
deriving DecidableEq, Repr

/-- confirmDelete (lines 523-530): a sandbox preset skill only gets the
readonly warning; otherwise the delete dialog opens on the skill. -/
def confirmDelete (skill : Skill) (st : DialogState) : DialogState × List Msg :=
  if isSandboxPresetSkill skill then
    (st, [{ text := MsgText.sandboxPresetReadonly, color := MsgColor.warning }])
  else
    ({ skillToDelete := some skill, deleteDialog := true }, [])

/-- Effects of one downloadSkill call: requests issued, messages shown, and
the values written to itemLoading[skill.name] in order. -/
structure DownloadResult where
  requests : List Request
  messages : List Msg
  loadingTrace : List Bool
deriving DecidableEq, Repr

/-- downloadSkill (lines 550-576): a sandbox preset skill only gets the
readonly warning; otherwise the component GETs /api/skills/download and
reports success or failure. -/
def downloadSkill (skill : Skill) (net : Net Unit) : DownloadResult :=
  if isSandboxPresetSkill skill then
    { requests := []
      messages := [{ text := MsgText.sandboxPresetReadonly, color := MsgColor.warning }]
      loadingTrace := [] }
  else
    match net with
    | Except.ok _ =>
      { requests := [Request.getSkillsDownload skill.name]
        messages := [{ text := MsgText.downloadSuccess, color := MsgColor.success }]
        loadingTrace := [true, false] }
    | Except.error _ =>
      { requests := [Request.getSkillsDownload skill.name]
        messages := [{ text := MsgText.downloadFailed, color := MsgColor.error }]
        loadingTrace := [true, false] }

/-- The fields of a release row the lifecycle actions read: id and the
normalised is_active flag. -/
structure Release where
  id : String
  is_active : Bool
deriving DecidableEq, Repr

/-- Effects of one release lifecycle call: the requests issued, the messages
shown, and whether fetchNeoData was called again afterwards. -/
structure LifecycleResult where
  requests : List Request
  messages : List Msg
  refetchedNeoData : Bool
deriving DecidableEq, Repr

/-- rollbackRelease (lines 684-695): POST /api/skills/neo/rollback with the
release id; on status "ok" show neoRollbackSuccess and refetch the neo data,
otherwise show the failure message. -/
def rollbackRelease (release : Release) (net : Net ApiResponse) : LifecycleResult :=
  match net with
  | Except.ok res =>
    let handled := handleApiResponse res MsgText.neoRollbackSuccess MsgText.neoRollbackFailed
    { requests := [Request.postNeoRollback release.id]
      messages := [handled.1]
      refetchedNeoData := handled.2 }
  | Except.error _ =>
    { requests := [Request.postNeoRollback release.id]
      messages := [{ text := MsgText.neoRollbackFailed, color := MsgColor.error }]
      refetchedNeoData := false }

/-- deactivateRelease (lines 697-713): the same POST to
/api/skills/neo/rollback, with the deactivate message pair. -/
def deactivateRelease (release : Release) (net : Net ApiResponse) : LifecycleResult :=
  match net with
  | Except.ok res =>
    let handled := handleApiResponse res MsgText.neoDeactivateSuccess MsgText.neoDeactivateFailed
    { requests := [Request.postNeoRollback release.id]
      messages := [handled.1]
      refetchedNeoData := handled.2 }
  | Except.error _ =>
    { requests := [Request.postNeoRollback release.id]
      messages := [{ text := MsgText.neoDeactivateFailed, color := MsgColor.error }]
      refetchedNeoData := false }

/-- handleReleaseLifecycleAction (lines 715-721): deactivate when the release
is active, roll back otherwise. -/
def handleReleaseLifecycleAction (release : Release) (net : Net ApiResponse) :
    LifecycleResult :=
  if release.is_active then deactivateRelease release net
  else rollbackRelease release net

/-- A neo candidate as promoteCandidate reads it: candidate?.id, absent when
the row carries no id. -/
structure Candidate where
  id : Option String
deriving DecidableEq, Repr

/-- Effects of one promoteCandidate call: requests issued, messages shown,
whether fetchNeoData ran afterwards, whether fetchSkills ran afterwards, and
the values written to candidatePromoteLoading for the (id, stage) key. -/
structure PromoteResult where
  requests : List Request
  messages : List Msg
  refetchedNeoData : Bool
  refetchedSkills : Bool
  loadingTrace : List Bool
deriving DecidableEq, Repr

/-- The result of a promoteCandidate call that returns before doing
anything (falsy candidate id, or a promote for the same key in flight). -/
def promoteNoop : PromoteResult :=
  { requests := []
    messages := []
    refetchedNeoData := false
    refetchedSkills := false
    loadingTrace := [] }

/-- promoteCandidate (lines 655-682): returns at once when candidate?.id is
falsy (absent or empty) or a promote for the same (id, stage) key is already
loading; otherwise POSTs /api/skills/neo/promote with sync_to_local true,
shows the success or failure message, refetches the neo data whenever a
response arrived, and refetches the local skills exactly when the stage is
"stable"; a rejected request only shows neoPromoteFailed. -/
def promoteCandidate (candidate : Candidate) (stage : String) (alreadyLoading : Bool)
    (net : Net ApiResponse) : PromoteResult :=
  match candidate.id with
  | none => promoteNoop
  | some cid =>
    if cid = "" then promoteNoop
    else if alreadyLoading then promoteNoop
    else
      match net with
      | Except.ok res =>
        { requests := [Request.postNeoPromote cid stage true]
          messages :=
            [if apiOk res then { text := MsgText.neoPromoteSuccess, color := MsgColor.success }
             else { text := failureText res MsgText.neoPromoteFailed, color := MsgColor.error }]
          refetchedNeoData := true
          refetchedSkills := stage == "stable"
          loadingTrace := [true, false] }
      | Except.error _ =>
        { requests := [Request.postNeoPromote cid stage true]
          messages := [{ text := MsgText.neoPromoteFailed, color := MsgColor.error }]
          refetchedNeoData := false
          refetchedSkills := false
          loadingTrace := [true, false] }

/-- Untyped JavaScript values, as far as the normalisation code observes
them: undefined, null, booleans, numbers, strings, arrays and objects (an
object is its properties in insertion order). -/
inductive JVal where
  | undef
  | null
  | bool (b : Bool)
  | num (n : Int)
  | str (s : String)
  | arr (xs : List JVal)
  | obj (fields : List (String × JVal))
deriving Repr

/-- JavaScript truthiness: undefined, null, false, 0 and "" are falsy;
arrays and objects are always truthy. -/
def truthy : JVal → Bool
  | JVal.undef => false
  | JVal.null => false
  | JVal.bool b => b
  | JVal.num n => n != 0
  | JVal.str s => s != ""
  | JVal.arr _ => true
  | JVal.obj _ => true

/-- The nullish values, which ?? and ?. skip over. -/
def isNullish : JVal → Bool
  | JVal.undef => true
  | JVal.null => true
  | _ => false

/-- a ?? b. -/
def jsNullish (v d : JVal) : JVal :=
  if isNullish v then d else v

/-- a || b. -/
def jsOr (v d : JVal) : JVal :=
  if truthy v then v else d

/-- Property read a.k for the properties the component uses: the named
property of an object (first binding wins, as in a JavaScript object, which
never holds a key twice), undefined on everything else. The component never
reads a named property off null or undefined without ?. guarding it. -/
def jsGet (v : JVal) (k : String) : JVal :=
  match v with
  | JVal.obj fields =>
    match fields.lookup k with
    | some w => w
    | none => JVal.undef
  | _ => JVal.undef

/-- Optional chaining a?.k: undefined when a is nullish, a.k otherwise. -/
def jsOptGet (v : JVal) (k : String) : JVal :=
  if isNullish v then JVal.undef else jsGet v k

/-- typeof v === "object" (true for objects, arrays and null). -/
def typeofIsObject : JVal → Bool
  | JVal.obj _ => true
  | JVal.arr _ => true
  | JVal.null => true
  | _ => false

/-- The own enumerable properties {...v} spreads: an object's properties,
an array's elements under their decimal index keys. The component only
spreads values that passed the truthy and typeof "object" checks. -/
def spreadFields : JVal → List (String × JVal)
  | JVal.obj fields => fields
  | JVal.arr xs => xs.enum.map (fun p => (toString p.1, p.2))
  | _ => []

/-- Property assignment as {...item, k: v} performs it: an existing key keeps
its position and takes the new value, a new key is appended. -/
def setFieldJS (fields : List (String × JVal)) (k : String) (v : JVal) :
    List (String × JVal) :=
  if (fields.lookup k).isSome then
    fields.map (fun p => if p.1 = k then (k, v) else p)
  else fields ++ [(k, v)]

/-- normalizeNeoItemsPayload (lines 446-451): payload = res?.data?.data || [];
the payload itself when it is an array, payload.items when that is an array,
the empty array otherwise. -/
def normalizeNeoItemsPayload (res : JVal) : List JVal :=
  let payload := jsOr (jsOptGet (jsOptGet res "data") "data") (JVal.arr [])
  match payload with
  | JVal.arr xs => xs
  | _ =>
    match jsGet payload "items" with
    | JVal.arr xs => xs
    | _ => []

/-- The map body of fetchNeoReleases (lines 593-601): a falsy or non-object
item passes through unchanged; an object-typed item gets
is_active: item.is_active ?? item.active ?? false written over its spread. -/
def mapReleaseItem (item : JVal) : JVal :=
  if !truthy item || !typeofIsObject item then item
  else
    let v := jsNullish (jsGet item "is_active")
      (jsNullish (jsGet item "active") (JVal.bool false))
    JVal.obj (setFieldJS (spreadFields item) "is_active" v)

/-- The neoFilters fields feeding the neo list requests. -/
structure NeoFilters where
  skill_key : String
  status : String
  stage : String
deriving DecidableEq, Repr

/-- neoFilters.x || undefined: empty filter strings are dropped from the
query parameters. -/
def optParam (s : String) : Option String :=
  if s = "" then none else some s

/-- The GET /api/skills/neo/candidates request of fetchNeoCandidates
(lines 578-585). -/
def neoCandidatesRequest (f : NeoFilters) : Request :=
  Request.getNeoCandidates (optParam f.skill_key) (optParam f.status)

/-- The GET /api/skills/neo/releases request of fetchNeoReleases
(lines 587-592). -/
def neoReleasesRequest (f : NeoFilters) : Request :=
  Request.getNeoReleases (optParam f.skill_key) (optParam f.stage)

/-- fetchNeoCandidates (lines 578-585): the request it issues and the value
it assigns to neoCandidates from the response body. -/
def fetchNeoCandidates (f : NeoFilters) (res : JVal) : Request × List JVal :=
  (neoCandidatesRequest f, normalizeNeoItemsPayload res)

/-- fetchNeoReleases (lines 587-602): the request it issues and the value it
assigns to neoReleases: the normalised items with is_active filled in. -/
def fetchNeoReleases (f : NeoFilters) (res : JVal) : Request × List JVal :=
  (neoReleasesRequest f, (normalizeNeoItemsPayload res).map mapReleaseItem)

/-- activeReleaseCount (line 390): the releases with truthy item?.is_active. -/
def activeReleaseCount (neoReleases : List JVal) : Nat :=
  (neoReleases.filter (fun item => truthy (jsOptGet item "is_active"))).length

/-- The component state fetchNeoData writes. -/
structure NeoState where
  neoCandidates : List JVal
  neoReleases : List JVal

/-- Effects of one fetchNeoData call. -/
structure FetchNeoDataResult where
  requests : List Request
  messages : List Msg
  stateAfter : NeoState
  loadingTrace : List Bool

/-- fetchNeoData (lines 622-631): sets neoLoading, awaits
Promise.all([fetchNeoCandidates(), fetchNeoReleases()]) - both requests are
issued and each assigns its own state on its own success - shows the single
neoLoadFailed message when either promise rejects, and clears neoLoading in
the finally block either way. -/
def fetchNeoData (f : NeoFilters) (candRes relRes : Net JVal) (st : NeoState) :
    FetchNeoDataResult :=
  { requests := [neoCandidatesRequest f, neoReleasesRequest f]
    messages :=
      match candRes, relRes with
      | Except.ok _, Except.ok _ => []
      | _, _ => [{ text := MsgText.neoLoadFailed, color := MsgColor.error }]
    stateAfter :=
      { neoCandidates :=
          match candRes with
          | Except.ok r => (fetchNeoCandidates f r).2
          | Except.error _ => st.neoCandidates
        neoReleases :=
          match relRes with
          | Except.ok r => (fetchNeoReleases f r).2
          | Except.error _ => st.neoReleases }
    loadingTrace := [true, false] }

/-- The provider_settings.sandbox subtree loadNeoAvailability reads. -/
structure SandboxSettings where
  booter : Option String
deriving DecidableEq, Repr

/-- The provider_settings subtree loadNeoAvailability reads; an absent field
stands for a key the config object does not carry. -/
structure ProviderSettings where
  computer_use_runtime : Option String
  sandbox : Option SandboxSettings
deriving DecidableEq, Repr

/-- The part of res.data.data.config that loadNeoAvailability reads. -/
structure AstrConfig where
  provider_settings : Option ProviderSettings
deriving DecidableEq, Repr

/-- v || d for an optionally present string read from the config: absent and
empty strings are falsy and fall back to the default. -/
def strOr (v : Option String) (d : String) : String :=
  match v with
  | some s => if s = "" then d else s
  | none => d

/-- The component state loadNeoAvailability leaves behind. -/
structure NeoAvailability where
  neoEnabled : Bool
  mode : String
  neoUnavailableMessage : MsgText
deriving DecidableEq, Repr

/-- loadNeoAvailability (lines 604-620): GET /api/config/get; with
config = res?.data?.data?.config || {}, neoEnabled becomes
(provider_settings?.computer_use_runtime || "local") === "sandbox" &&
(provider_settings?.sandbox?.booter || "") === "shipyard_neo", and false when
the request rejected; then the unavailable message is set and a "neo" mode
falls back to "local" when neo is not enabled. The Net value carries none
when the fetch succeeded but res.data.data.config was falsy. -/
def loadNeoAvailability (net : Net (Option AstrConfig)) (mode0 : String) :
    NeoAvailability :=
  let neoEnabled :=
    match net with
    | Except.ok cfgOpt =>
      let config := cfgOpt.getD { provider_settings := none }
      let providerSettings :=
        config.provider_settings.getD { computer_use_runtime := none, sandbox := none }
      let runtime := strOr providerSettings.computer_use_runtime "local"
      let booter := strOr ((providerSettings.sandbox.getD { booter := none }).booter) ""
      runtime == "sandbox" && booter == "shipyard_neo"
    | Except.error _ => false
  { neoEnabled := neoEnabled
    mode := if !neoEnabled && mode0 == "neo" then "local" else mode0
    neoUnavailableMessage := MsgText.neoRuntimeRequired }

end SkillsSection

open PrTestEnv SkillsSection

/-- Claim C2: the frontend build is off by default and only runs when the dashboard
flag ends up enabled; --with-dashboard enables it. But the claim's last part
fails: with the full profile, --no-dashboard leaves RUN_DASHBOARD false after
option processing and lines 75-77 then force it back to true, so the build
runs anyway, against the script's own usage text "Disable dashboard build
(even for full profile)". The last conjunct evaluates the script's flag
logic at that failing input. -/
theorem dashboard_flag_evaluation :
    (finalConfig []).runDashboard = false
    ∧ (finalConfig [Opt.withDashboard]).runDashboard = true
    ∧ (finalConfig [Opt.noDashboard]).runDashboard = false
    ∧ (finalConfig [Opt.profile Profile.full]).runDashboard = true
    ∧ (finalConfig [Opt.profile Profile.full, Opt.noDashboard]).runDashboard = true := by
  refine ⟨rfl, rfl, rfl, rfl, rfl⟩

/-- Claim C4: every run attempts its enabled steps in the script's fixed source
order - sync, ruff format, ruff check, pytest, smoke test, dashboard build -
with no step repeated or reordered; pytest always runs with the profile's
test set, and each optional step appears exactly when its flag is set. -/
theorem scriptSteps_fixed_linear_order (c : Config) :
    (scriptSteps c).Pairwise (fun a b => stepIndex a < stepIndex b)
    ∧ (scriptSteps c).Nodup
    ∧ Step.pytest c.profile ∈ scriptSteps c
    ∧ (∀ p : Profile, Step.pytest p ∈ scriptSteps c → p = c.profile)
    ∧ (Step.uvSync ∈ scriptSteps c ↔ c.runSync = true)
    ∧ ((Step.ruffFormat ∈ scriptSteps c ∧ Step.ruffCheck ∈ scriptSteps c) ↔ c.runLint = true)
    ∧ (Step.smoke ∈ scriptSteps c ↔ c.runSmoke = true)
    ∧ (Step.dashboard ∈ scriptSteps c ↔ c.runDashboard = true) := by
  obtain ⟨p, s, l, m, d⟩ := c
  cases p <;> cases s <;> cases l <;> cases m <;> cases d <;>
    refine ⟨by decide, by decide, by decide, ?_, by decide, by decide, by decide, by decide⟩ <;>
    intro q hq <;> cases q <;> simp [scriptSteps] at hq ⊢

/-- Reading back a property just written: after {...fields, k: v},
looking up k finds v, whether k was already present or was appended. -/
theorem lookup_setFieldJS (fields : List (String × JVal)) (k : String) (v : JVal) :
    (setFieldJS fields k v).lookup k = some v := by
  induction fields with
  | nil => simp [setFieldJS, List.lookup]
  | cons p rest ih =>
    obtain ⟨k2, v2⟩ := p
    by_cases hk : k2 = k
    · subst hk
      simp [setFieldJS, List.lookup]
    · have hne : (k == k2) = false := beq_eq_false_iff_ne.mpr (Ne.symm hk)
      have hcons : ((k2, v2) :: rest).lookup k = rest.lookup k := by
        simp only [List.lookup, hne]
      cases hrest : (rest.lookup k).isSome with
      | true =>
        have h1 : setFieldJS ((k2, v2) :: rest) k v
            = (k2, v2) :: List.map (fun p => if p.1 = k then (k, v) else p) rest := by
          simp [setFieldJS, hcons, hrest, hk]
        have h2 : setFieldJS rest k v
            = List.map (fun p => if p.1 = k then (k, v) else p) rest := by
          simp [setFieldJS, hrest]
        rw [h2] at ih
        rw [h1]
        simpa only [List.lookup, hne] using ih
      | false =>
        have h1 : setFieldJS ((k2, v2) :: rest) k v = (k2, v2) :: (rest ++ [(k, v)]) := by
          simp [setFieldJS, hcons, hrest]
        have h2 : setFieldJS rest k v = rest ++ [(k, v)] := by
          simp [setFieldJS, hrest]
        rw [h2] at ih
        rw [h1]
        simpa only [List.lookup, hne] using ih

/-- A falsy or non-object-typed item passes through the release map
unchanged. -/
theorem mapReleaseItem_passthrough (item : JVal)
    (hg : (truthy item && typeofIsObject item) = false) :
    mapReleaseItem item = item := by
  unfold mapReleaseItem
  cases ht : truthy item with
  | false => simp [ht]
  | true =>
    cases hto : typeofIsObject item with
    | false => simp [ht, hto]
    | true =>
      rw [ht, hto] at hg
      cases hg

/-- A truthy object-typed item's mapped result reads back is_active as the
nullish chain item.is_active ?? item.active ?? false. -/
theorem mapReleaseItem_is_active (item : JVal)
    (hg : (truthy item && typeofIsObject item) = true) :
    jsGet (mapReleaseItem item) "is_active"
      = jsNullish (jsGet item "is_active")
          (jsNullish (jsGet item "active") (JVal.bool false)) := by
  obtain ⟨h1, h2⟩ := (Bool.and_eq_true (truthy item) (typeofIsObject item)).mp hg
  have hcond : (!truthy item || !typeofIsObject item) = false := by
    simp [h1, h2]
  unfold mapReleaseItem
  rw [hcond]
  simp only [Bool.false_eq_true, if_false, jsGet, lookup_setFieldJS]

/-- Claim C1 counterexample: the claim quantifies over every skill shown in local
mode, but for a sandbox preset skill (source_type "sandbox_only", which the
local list does show) toggleSkill issues no POST /api/skills/update at all
and leaves active unchanged even though the environment would answer with
status "ok"; it shows the readonly warning instead of an error. -/
theorem toggleSkill_sandbox_counterexample :
    (toggleSkill { name := "web-search", active := false, source_type := some "sandbox_only" }
        (Except.ok { status := some "ok", message := none })).requests = []
    ∧ (toggleSkill { name := "web-search", active := false, source_type := some "sandbox_only" }
        (Except.ok { status := some "ok", message := none })).skillAfter.active = false
    ∧ (toggleSkill { name := "web-search", active := false, source_type := some "sandbox_only" }
        (Except.ok { status := some "ok", message := none })).messages
        = [{ text := MsgText.sandboxPresetReadonly, color := MsgColor.warning }] := by
  refine ⟨rfl, rfl, rfl⟩

/-- Claim C1 as amended: for every skill shown in local mode that is not a sandbox
preset skill, toggleSkill POSTs /api/skills/update with the skill's name and
the negated active flag; when the response has status "ok" it sets
skill.active to the negated value and shows the success message, on any
other response it leaves skill.active unchanged and shows an error message
(the server's or the updateFailed default), and on a rejected request it
leaves skill.active unchanged and shows the updateFailed error. -/
theorem toggleSkill_update_contract (skill : Skill) (net : Net ApiResponse)
    (h : skill.source_type ≠ some "sandbox_only") :
    (toggleSkill skill net).requests = [Request.postSkillsUpdate skill.name (!skill.active)]
    ∧ (∀ res : ApiResponse, net = Except.ok res →
        (res.status = some "ok" →
          (toggleSkill skill net).skillAfter = { skill with active := !skill.active }
          ∧ (toggleSkill skill net).messages
              = [{ text := MsgText.updateSuccess, color := MsgColor.success }])
        ∧ (res.status ≠ some "ok" →
          (toggleSkill skill net).skillAfter = skill
          ∧ (toggleSkill skill net).messages
              = [{ text := failureText res MsgText.updateFailed, color := MsgColor.error }]))
    ∧ (net = Except.error () →
        (toggleSkill skill net).skillAfter = skill
        ∧ (toggleSkill skill net).messages
            = [{ text := MsgText.updateFailed, color := MsgColor.error }]) := by
  have hguard : isSandboxPresetSkill skill = false := by
    simp [isSandboxPresetSkill]
    exact h
  refine ⟨?_, ?_, ?_⟩
  · cases net <;> simp [toggleSkill, hguard]
  · intro res hres
    subst hres
    constructor
    · intro hok
      simp [toggleSkill, hguard, handleApiResponse, apiOk, hok]
    · intro hok
      have : (res.status == some "ok") = false := by
        simp [hok]
      simp [toggleSkill, hguard, handleApiResponse, apiOk, this]
  · intro hres
    subst hres
    simp [toggleSkill, hguard]

/-- Claim C1 witness: the amended contract applied to a plain local skill with an
"ok" response: the POST carries the negated flag. -/
theorem toggleSkill_update_contract_witness :
    ({ name := "demo", active := false, source_type := none } : Skill).source_type
        ≠ some "sandbox_only"
    ∧ (toggleSkill { name := "demo", active := false, source_type := none }
        (Except.ok { status := some "ok", message := none })).requests
        = [Request.postSkillsUpdate "demo" true] := by
  refine ⟨by decide, ?_⟩
  exact (toggleSkill_update_contract
    { name := "demo", active := false, source_type := none }
    (Except.ok { status := some "ok", message := none }) (by decide)).1

/-- Claim C8: on a sandbox preset skill (source_type "sandbox_only"), toggleSkill,
confirmDelete and downloadSkill are read-only no-ops whatever the network
would have answered: each shows only the sandboxPresetReadonly warning,
issues no request, leaves the skill and the delete dialog state unchanged,
and never touches its loading flag. (The skills list itself is only ever
rewritten by fetchSkills, which none of the three guarded paths reaches.) -/
theorem sandbox_preset_skill_operations_readonly (skill : Skill) (st : DialogState)
    (net : Net ApiResponse) (dl : Net Unit)
    (h : skill.source_type = some "sandbox_only") :
    toggleSkill skill net =
      { requests := []
        messages := [{ text := MsgText.sandboxPresetReadonly, color := MsgColor.warning }]
        skillAfter := skill
        loadingTrace := [] }
    ∧ confirmDelete skill st =
      (st, [{ text := MsgText.sandboxPresetReadonly, color := MsgColor.warning }])
    ∧ downloadSkill skill dl =
      { requests := []
        messages := [{ text := MsgText.sandboxPresetReadonly, color := MsgColor.warning }]
        loadingTrace := [] } := by
  have hguard : isSandboxPresetSkill skill = true := by
    simp [isSandboxPresetSkill, h]
  refine ⟨?_, ?_, ?_⟩
  · simp [toggleSkill, hguard]
  · simp [confirmDelete, hguard]
  · simp [downloadSkill, hguard]

/-- Claim C8 witness: the three no-op equations at a concrete sandbox preset skill,
an "ok" response and a successful download environment. -/
theorem sandbox_preset_skill_operations_readonly_witness :
    ({ name := "pdf", active := true, source_type := some "sandbox_only" } : Skill).source_type
        = some "sandbox_only"
    ∧ (toggleSkill { name := "pdf", active := true, source_type := some "sandbox_only" }
        (Except.ok { status := some "ok", message := none })).requests = [] := by
  refine ⟨rfl, ?_⟩
  have hc := sandbox_preset_skill_operations_readonly
    { name := "pdf", active := true, source_type := some "sandbox_only" }
    { skillToDelete := none, deleteDialog := false }
    (Except.ok { status := some "ok", message := none })
    (Except.ok ()) rfl
  rw [hc.1]

/-- Claim C5: for every release and every network outcome, the lifecycle button's
action POSTs /api/skills/neo/rollback with the release's id whether the
release is active (labelled deactivate) or not (labelled rollback); the
active branch is exactly deactivateRelease and the inactive branch exactly
rollbackRelease, the two differ in no observable but their messages, and
both refetch the neo data exactly when the response has status "ok". -/
theorem releaseLifecycle_single_rollback_endpoint (release : Release)
    (net : Net ApiResponse) :
    (handleReleaseLifecycleAction release net).requests
        = [Request.postNeoRollback release.id]
    ∧ ((handleReleaseLifecycleAction release net).refetchedNeoData = true ↔
        ∃ res : ApiResponse, net = Except.ok res ∧ res.status = some "ok")
    ∧ (rollbackRelease release net).requests = (deactivateRelease release net).requests
    ∧ (rollbackRelease release net).refetchedNeoData
        = (deactivateRelease release net).refetchedNeoData
    ∧ (release.is_active = true →
        handleReleaseLifecycleAction release net = deactivateRelease release net)
    ∧ (release.is_active = false →
        handleReleaseLifecycleAction release net = rollbackRelease release net) := by
  have hrefetch : ∀ out : LifecycleResult,
      (out = rollbackRelease release net ∨ out = deactivateRelease release net) →
      (out.refetchedNeoData = true ↔
        ∃ res : ApiResponse, net = Except.ok res ∧ res.status = some "ok") := by
    intro out hout
    cases net with
    | ok res =>
      by_cases hst : res.status = some "ok" <;>
        rcases hout with h | h <;> subst h <;>
        simp [rollbackRelease, deactivateRelease, handleApiResponse, apiOk, hst] <;>
        first
        | exact ⟨res, rfl, hst⟩
        | (intro x hx; cases hx; exact hst)
    | error e =>
      rcases hout with h | h <;> subst h <;>
        simp [rollbackRelease, deactivateRelease]
  refine ⟨?_, ?_, ?_, ?_, ?_, ?_⟩
  · by_cases hac : release.is_active <;>
      cases net <;>
      simp [handleReleaseLifecycleAction, hac, rollbackRelease, deactivateRelease]
  · by_cases hac : release.is_active
    · have := hrefetch (deactivateRelease release net) (Or.inr rfl)
      simpa [handleReleaseLifecycleAction, hac] using this
    · have := hrefetch (rollbackRelease release net) (Or.inl rfl)
      simpa [handleReleaseLifecycleAction, hac] using this
  · cases net <;> simp [rollbackRelease, deactivateRelease]
  · cases net with
    | ok res =>
      by_cases hst : res.status = some "ok" <;>
        simp [rollbackRelease, deactivateRelease, handleApiResponse, apiOk, hst]
    | error e => simp [rollbackRelease, deactivateRelease]
  · intro hac
    simp [handleReleaseLifecycleAction, hac]
  · intro hac
    simp [handleReleaseLifecycleAction, hac]

/-- Claim C6 counterexample: the claim quantifies over every candidate, but for a
candidate whose id is falsy (the row carries none) promoteCandidate returns
before issuing any request, so nothing is posted and nothing is refetched
even though the environment would answer with status "ok". -/
theorem promoteCandidate_falsy_id_counterexample :
    promoteCandidate { id := none } "canary" false
        (Except.ok { status := some "ok", message := none }) = promoteNoop
    ∧ (promoteCandidate { id := none } "canary" false
        (Except.ok { status := some "ok", message := none })).requests = []
    ∧ (promoteCandidate { id := none } "canary" false
        (Except.ok { status := some "ok", message := none })).refetchedNeoData = false := by
  refine ⟨rfl, rfl, rfl⟩

/-- Claim C6 as amended: for every candidate with a truthy id and no promote
request for the same (id, stage) key already in flight, promoteCandidate
POSTs /api/skills/neo/promote with the candidate id, the stage and
sync_to_local true; whenever a response arrives, ok or not, it refetches the
neo candidate and release lists, and it also refetches the local skills list
exactly when the stage is "stable"; when the request rejects it refetches
nothing and shows the neoPromoteFailed error. -/
theorem promoteCandidate_contract (cid : String) (stage : String) (net : Net ApiResponse)
    (hcid : cid ≠ "") :
    (promoteCandidate { id := some cid } stage false net).requests
        = [Request.postNeoPromote cid stage true]
    ∧ (∀ res : ApiResponse, net = Except.ok res →
        (promoteCandidate { id := some cid } stage false net).refetchedNeoData = true
        ∧ ((promoteCandidate { id := some cid } stage false net).refetchedSkills = true
            ↔ stage = "stable"))
    ∧ (net = Except.error () →
        (promoteCandidate { id := some cid } stage false net).refetchedNeoData = false
        ∧ (promoteCandidate { id := some cid } stage false net).refetchedSkills = false
        ∧ (promoteCandidate { id := some cid } stage false net).messages
            = [{ text := MsgText.neoPromoteFailed, color := MsgColor.error }]) := by
  refine ⟨?_, ?_, ?_⟩
  · cases net with
    | ok res =>
      by_cases hok : apiOk res <;> simp [promoteCandidate, hcid, hok]
    | error e => simp [promoteCandidate, hcid]
  · intro res hres
    subst hres
    by_cases hok : apiOk res <;> simp [promoteCandidate, hcid, hok]
  · intro hres
    subst hres
    simp [promoteCandidate, hcid]

/-- Claim C6 witness: the amended contract at a concrete candidate promoted to
stable with an "ok" response: the POST carries sync_to_local true and the
local skills list is refetched. -/
theorem promoteCandidate_contract_witness :
    ("cand-1" : String) ≠ ""
    ∧ (promoteCandidate { id := some "cand-1" } "stable" false
        (Except.ok { status := some "ok", message := none })).requests
        = [Request.postNeoPromote "cand-1" "stable" true] := by
  refine ⟨by decide, ?_⟩
  exact (promoteCandidate_contract "cand-1" "stable"
    (Except.ok { status := some "ok", message := none }) (by decide)).1

/-- Claim C7: fetchNeoData issues exactly the two neo fetches (candidates then
releases, both started by the same Promise.all), shows the single
neoLoadFailed error message exactly when at least one of the two rejects and
no message otherwise, and its loading flag is set at the start and cleared
at the end on success and failure alike. -/
theorem fetchNeoData_two_fetches_single_error (f : NeoFilters)
    (candRes relRes : Net JVal) (st : NeoState) :
    (fetchNeoData f candRes relRes st).requests
        = [neoCandidatesRequest f, neoReleasesRequest f]
    ∧ (fetchNeoData f candRes relRes st).requests.length = 2
    ∧ ((fetchNeoData f candRes relRes st).messages = [] ↔
        (∃ a, candRes = Except.ok a) ∧ (∃ b, relRes = Except.ok b))
    ∧ ((fetchNeoData f candRes relRes st).messages
          = [{ text := MsgText.neoLoadFailed, color := MsgColor.error }] ↔
        (candRes = Except.error () ∨ relRes = Except.error ()))
    ∧ (fetchNeoData f candRes relRes st).loadingTrace = [true, false] := by
  refine ⟨rfl, rfl, ?_, ?_, rfl⟩
  · cases candRes <;> cases relRes <;> simp [fetchNeoData]
  · cases candRes <;> cases relRes <;> simp [fetchNeoData]

/-- The probe loop performs at most one probe per remaining attempt. -/
theorem smokeLoop_probes_le (env : SmokeEnv) (l : List Nat) :
    (smokeLoop env l).2 ≤ l.length := by
  induction l with
  | nil => simp [smokeLoop]
  | cons i rest ih =>
    by_cases hp : env.probeOk i
    · simp [smokeLoop, hp]
    · by_cases ha : env.alive i
      · simp only [smokeLoop, hp, ha, Bool.false_eq_true, if_false, if_true,
          List.length_cons]
        omega
      · simp [smokeLoop, hp, ha]

/-- The probe loop succeeds exactly when some attempt's probe succeeds and
every earlier attempt failed its probe with the process still alive. -/
theorem smokeLoop_success_iff (env : SmokeEnv) (l : List Nat) :
    (smokeLoop env l).1 = SmokeResult.success ↔
      ∃ n i, l.get? n = some i ∧ env.probeOk i = true
        ∧ ∀ j ∈ l.take n, env.probeOk j = false ∧ env.alive j = true := by
  induction l with
  | nil => simp [smokeLoop]
  | cons a rest ih =>
    by_cases hp : env.probeOk a
    · constructor
      · intro _
        exact ⟨0, a, rfl, hp, by simp⟩
      · intro _
        simp [smokeLoop, hp]
    · by_cases ha : env.alive a
      · have hstep : (smokeLoop env (a :: rest)).1 = (smokeLoop env rest).1 := by
          simp [smokeLoop, hp, ha]
        rw [hstep, ih]
        constructor
        · rintro ⟨n, i, hget, hpi, hall⟩
          refine ⟨n + 1, i, by simpa using hget, hpi, ?_⟩
          intro j hj
          rcases List.mem_cons.mp (by simpa using hj) with hj1 | hj2
          · subst hj1
            exact ⟨by simpa using hp, ha⟩
          · exact hall j hj2
        · rintro ⟨n, i, hget, hpi, hall⟩
          cases n with
          | zero =>
            have : a = i := by simpa using hget
            subst this
            exact absurd hpi (by simpa using hp)
          | succ m =>
            refine ⟨m, i, by simpa using hget, hpi, ?_⟩
            intro j hj
            exact hall j (by simpa using Or.inr hj)
      · constructor
        · intro h
          exact absurd h (by simp [smokeLoop, hp, ha])
        · rintro ⟨n, i, hget, hpi, hall⟩
          cases n with
          | zero =>
            have : a = i := by simpa using hget
            subst this
            exact absurd hpi (by simpa using hp)
          | succ m =>
            have := hall a (by simp)
            exact absurd this.2 (by simpa using ha)

/-- The probe loop reports a dead process exactly when some attempt finds
the probe failed and the process gone, every earlier attempt having failed
its probe with the process alive. -/
theorem smokeLoop_procExited_iff (env : SmokeEnv) (l : List Nat) :
    (smokeLoop env l).1 = SmokeResult.procExited ↔
      ∃ n i, l.get? n = some i ∧ env.probeOk i = false ∧ env.alive i = false
        ∧ ∀ j ∈ l.take n, env.probeOk j = false ∧ env.alive j = true := by
  induction l with
  | nil => simp [smokeLoop]
  | cons a rest ih =>
    by_cases hp : env.probeOk a
    · constructor
      · intro h
        exact absurd h (by simp [smokeLoop, hp])
      · rintro ⟨n, i, hget, hpi, hai, hall⟩
        cases n with
        | zero =>
          have : a = i := by simpa using hget
          subst this
          exact absurd hp (by simp [hpi])
        | succ m =>
          have := hall a (by simp)
          exact absurd hp (by simp [this.1])
    · by_cases ha : env.alive a
      · have hstep : (smokeLoop env (a :: rest)).1 = (smokeLoop env rest).1 := by
          simp [smokeLoop, hp, ha]
        rw [hstep, ih]
        constructor
        · rintro ⟨n, i, hget, hpi, hai, hall⟩
          refine ⟨n + 1, i, by simpa using hget, hpi, hai, ?_⟩
          intro j hj
          rcases List.mem_cons.mp (by simpa using hj) with hj1 | hj2
          · subst hj1
            exact ⟨by simpa using hp, ha⟩
          · exact hall j hj2
        · rintro ⟨n, i, hget, hpi, hai, hall⟩
          cases n with
          | zero =>
            have : a = i := by simpa using hget
            subst this
            exact absurd ha (by simp [hai])
          | succ m =>
            refine ⟨m, i, by simpa using hget, hpi, hai, ?_⟩
            intro j hj
            exact hall j (by simpa using Or.inr hj)
      · constructor
        · intro _
          refine ⟨0, a, rfl, by simpa using hp, by simpa using ha, by simp⟩
        · intro _
          simp [smokeLoop, hp, ha]

/-- The probe loop times out exactly when every attempt fails its probe with
the process still alive. -/
theorem smokeLoop_timedOut_iff (env : SmokeEnv) (l : List Nat) :
    (smokeLoop env l).1 = SmokeResult.timedOut ↔
      ∀ j ∈ l, env.probeOk j = false ∧ env.alive j = true := by
  induction l with
  | nil => simp [smokeLoop]
  | cons a rest ih =>
    by_cases hp : env.probeOk a
    · constructor
      · intro h
        exact absurd h (by simp [smokeLoop, hp])
      · intro hall
        exact absurd hp (by simp [(hall a (by simp)).1])
    · by_cases ha : env.alive a
      · have hstep : (smokeLoop env (a :: rest)).1 = (smokeLoop env rest).1 := by
          simp [smokeLoop, hp, ha]
        rw [hstep, ih]
        constructor
        · intro hall
          intro j hj
          rcases List.mem_cons.mp hj with hj1 | hj2
          · subst hj1
            exact ⟨by simpa using hp, ha⟩
          · exact hall j hj2
        · intro hall
          intro j hj
          exact hall j (List.mem_cons_of_mem a hj)
      · constructor
        · intro h
          exact absurd h (by simp [smokeLoop, hp, ha])
        · intro hall
          exact absurd (hall a (by simp)).2 (by simpa using ha)

/-- Claim C3: run_smoke_test is a bounded retry loop. It performs at most 60
probes; with curl available it succeeds exactly when some attempt's probe
succeeds after a prefix of failed-but-alive attempts (returning exit code 0
as soon as a probe succeeds), it returns 1 with procExited exactly when the
process is found dead after such a prefix and before any success, and it
returns 1 with timedOut exactly when all 60 probes fail with the process
alive; the exit status is 0 exactly on success, so the function always
terminates with a definite status. (The one-second sleep between attempts
is real time, outside this model.) -/
theorem run_smoke_test_bounded_retry (env : SmokeEnv) :
    (run_smoke_test env).2 ≤ 60
    ∧ (env.curlAvailable = true →
        (((run_smoke_test env).1 = SmokeResult.success ↔
            ∃ n i, smokeAttempts.get? n = some i ∧ env.probeOk i = true
              ∧ ∀ j ∈ smokeAttempts.take n, env.probeOk j = false ∧ env.alive j = true)
        ∧ ((run_smoke_test env).1 = SmokeResult.procExited ↔
            ∃ n i, smokeAttempts.get? n = some i ∧ env.probeOk i = false
              ∧ env.alive i = false
              ∧ ∀ j ∈ smokeAttempts.take n, env.probeOk j = false ∧ env.alive j = true)
        ∧ ((run_smoke_test env).1 = SmokeResult.timedOut ↔
            ∀ j ∈ smokeAttempts, env.probeOk j = false ∧ env.alive j = true)))
    ∧ (exitCode (run_smoke_test env).1 = 0 ↔ (run_smoke_test env).1 = SmokeResult.success) := by
  refine ⟨?_, ?_, ?_⟩
  · unfold run_smoke_test
    by_cases hc : env.curlAvailable
    · simp only [hc, if_true]
      have := smokeLoop_probes_le env smokeAttempts
      simpa [smokeAttempts] using this
    · simp [hc]
  · intro hc
    unfold run_smoke_test
    simp only [hc, if_true]
    exact ⟨smokeLoop_success_iff env smokeAttempts,
      smokeLoop_procExited_iff env smokeAttempts,
      smokeLoop_timedOut_iff env smokeAttempts⟩
  · cases hres : (run_smoke_test env).1 <;> simp [exitCode]

/-- Claim C10: after a successful fetchNeoReleases, neoReleases is always an
array: the payload itself when that is an array, payload.items when that is
an array, empty for every other response shape. Every element of it that is
an object reads back is_active as the backend row's is_active when that is
present with a non-nullish value, otherwise the row's active when that is
non-nullish, otherwise false. Consequently activeReleaseCount is the number
of entries with truthy is_active and never exceeds the list's length. -/
theorem fetchNeoReleases_normalization (f : NeoFilters) (res : JVal) :
    (normalizeNeoItemsPayload res = []
      ∨ jsOr (jsOptGet (jsOptGet res "data") "data") (JVal.arr [])
          = JVal.arr (normalizeNeoItemsPayload res)
      ∨ jsGet (jsOr (jsOptGet (jsOptGet res "data") "data") (JVal.arr [])) "items"
          = JVal.arr (normalizeNeoItemsPayload res))
    ∧ (∀ x ∈ (fetchNeoReleases f res).2, ∃ item ∈ normalizeNeoItemsPayload res,
        x = mapReleaseItem item
        ∧ (∀ fields, x = JVal.obj fields →
            (isNullish (jsGet item "is_active") = false →
              jsGet x "is_active" = jsGet item "is_active")
            ∧ (isNullish (jsGet item "is_active") = true →
                isNullish (jsGet item "active") = false →
              jsGet x "is_active" = jsGet item "active")
            ∧ (isNullish (jsGet item "is_active") = true →
                isNullish (jsGet item "active") = true →
              jsGet x "is_active" = JVal.bool false)))
    ∧ activeReleaseCount (fetchNeoReleases f res).2
        = ((fetchNeoReleases f res).2.filter
            (fun item => truthy (jsOptGet item "is_active"))).length
    ∧ activeReleaseCount (fetchNeoReleases f res).2 ≤ (fetchNeoReleases f res).2.length := by
  refine ⟨?_, ?_, rfl, ?_⟩
  · rcases hp : jsOr (jsOptGet (jsOptGet res "data") "data") (JVal.arr []) with
      _ | _ | b | n | s | xs | fs
    · exact Or.inl (by simp [normalizeNeoItemsPayload, hp, jsGet])
    · exact Or.inl (by simp [normalizeNeoItemsPayload, hp, jsGet])
    · exact Or.inl (by simp [normalizeNeoItemsPayload, hp, jsGet])
    · exact Or.inl (by simp [normalizeNeoItemsPayload, hp, jsGet])
    · exact Or.inl (by simp [normalizeNeoItemsPayload, hp, jsGet])
    · refine Or.inr (Or.inl ?_)
      have : normalizeNeoItemsPayload res = xs := by
        simp [normalizeNeoItemsPayload, hp]
      rw [this]
    · rcases hit : jsGet (JVal.obj fs) "items" with _ | _ | b2 | n2 | s2 | ys | fs2
      · exact Or.inl (by simp [normalizeNeoItemsPayload, hp, hit])
      · exact Or.inl (by simp [normalizeNeoItemsPayload, hp, hit])
      · exact Or.inl (by simp [normalizeNeoItemsPayload, hp, hit])
      · exact Or.inl (by simp [normalizeNeoItemsPayload, hp, hit])
      · exact Or.inl (by simp [normalizeNeoItemsPayload, hp, hit])
      · refine Or.inr (Or.inr ?_)
        have : normalizeNeoItemsPayload res = ys := by
          simp [normalizeNeoItemsPayload, hp, hit]
        rw [this]
      · exact Or.inl (by simp [normalizeNeoItemsPayload, hp, hit])
  · intro x hx
    have hx2 : x ∈ (normalizeNeoItemsPayload res).map mapReleaseItem := hx
    obtain ⟨item, hitem, hxeq⟩ := List.mem_map.mp hx2
    refine ⟨item, hitem, hxeq.symm, ?_⟩
    intro fields hf
    cases hg : (truthy item && typeofIsObject item) with
    | false =>
      have hpass : mapReleaseItem item = item := mapReleaseItem_passthrough item hg
      have hobj : item = JVal.obj fields := by
        rw [← hpass, hxeq, hf]
      rw [hobj] at hg
      simp [truthy, typeofIsObject] at hg
    | true =>
      have hmain : jsGet x "is_active"
          = jsNullish (jsGet item "is_active")
              (jsNullish (jsGet item "active") (JVal.bool false)) := by
        rw [← hxeq]
        exact mapReleaseItem_is_active item hg
      refine ⟨?_, ?_, ?_⟩
      · intro h1
        simp [hmain, jsNullish, h1]
      · intro h1 h2
        simp [hmain, jsNullish, h1, h2]
      · intro h1 h2
        simp [hmain, jsNullish, h1, h2]
  · exact List.length_filter_le _ _

/-- A truthy-or-default string equals a non-empty string other than the
default exactly when the optional value carries it. -/
theorem strOr_eq_iff (v : Option String) (d x : String) (hx : x ≠ "") (hd : d ≠ x) :
    strOr v d = x ↔ v = some x := by
  cases v with
  | none =>
    simp only [strOr]
    exact ⟨fun h => absurd h hd, fun h => by cases h⟩
  | some s =>
    by_cases hs : s = ""
    · subst hs
      simp only [strOr, if_pos rfl]
      constructor
      · intro h
        exact absurd h hd
      · intro h
        exact absurd (Option.some.inj h).symm hx
    · simp only [strOr, if_neg hs]
      constructor
      · intro h
        exact congrArg some h
      · intro h
        exact Option.some.inj h

/-- neoEnabled after loadNeoAvailability, characterised: the fetch succeeded
with a config whose provider_settings carry computer_use_runtime "sandbox"
and sandbox.booter "shipyard_neo". -/
theorem loadNeoAvailability_enabled_char (net : Net (Option AstrConfig)) (mode0 : String) :
    (loadNeoAvailability net mode0).neoEnabled = true ↔
      (∃ cfg ps sb, net = Except.ok (some cfg)
        ∧ cfg.provider_settings = some ps
        ∧ ps.computer_use_runtime = some "sandbox"
        ∧ ps.sandbox = some sb
        ∧ sb.booter = some "shipyard_neo") := by
  cases net with
  | error e =>
    constructor
    · intro h
      cases h
    · rintro ⟨cfg, ps, sb, h, -⟩
      cases h
  | ok cfgOpt =>
    cases cfgOpt with
    | none =>
      constructor
      · intro h
        exact absurd h (by simp [loadNeoAvailability, strOr])
      · rintro ⟨cfg, ps, sb, h, -⟩
        injection Except.ok.inj h
    | some cfg =>
      obtain ⟨pso⟩ := cfg
      cases pso with
      | none =>
        constructor
        · intro h
          exact absurd h (by simp [loadNeoAvailability, strOr])
        · rintro ⟨cfg2, ps, sb, h, h1, -⟩
          have hc := Option.some.inj (Except.ok.inj h)
          subst hc
          cases h1
      | some ps =>
        obtain ⟨ru, sbo⟩ := ps
        constructor
        · intro h
          have h2 : strOr ru "local" = "sandbox"
              ∧ strOr ((sbo.getD { booter := none }).booter) "" = "shipyard_neo" := by
            simpa [loadNeoAvailability, Bool.and_eq_true] using h
          have hru : ru = some "sandbox" :=
            (strOr_eq_iff ru "local" "sandbox" (by decide) (by decide)).mp h2.1
          cases sbo with
          | none => exact absurd h2.2 (by decide)
          | some sb =>
            obtain ⟨bo⟩ := sb
            have hbo : bo = some "shipyard_neo" :=
              (strOr_eq_iff bo "" "shipyard_neo" (by decide) (by decide)).mp h2.2
            subst hru
            subst hbo
            exact ⟨_, _, _, rfl, rfl, rfl, rfl, rfl⟩
        · rintro ⟨cfg2, ps2, sb2, h, h1, h2, h3, h4⟩
          have hc := Option.some.inj (Except.ok.inj h)
          subst hc
          have hps := Option.some.inj h1
          subst hps
          have hru := h2
          have hsb := h3
          obtain ⟨bo⟩ := sb2
          have hbo := h4
          subst hru
          subst hsb
          subst hbo
          simp [loadNeoAvailability, strOr]

/-- Claim C9: after loadNeoAvailability, neoEnabled holds exactly when the config
fetch succeeded and the config carries
provider_settings.computer_use_runtime = "sandbox" and
provider_settings.sandbox.booter = "shipyard_neo"; a failed fetch leaves it
false; and the invariant holds: a resulting mode of "neo" implies neoEnabled,
because a "neo" mode is forced back to "local" whenever neo is unavailable,
while an enabled runtime leaves the mode untouched. -/
theorem loadNeoAvailability_invariant (net : Net (Option AstrConfig)) (mode0 : String) :
    ((loadNeoAvailability net mode0).neoEnabled = true ↔
      (∃ cfg ps sb, net = Except.ok (some cfg)
        ∧ cfg.provider_settings = some ps
        ∧ ps.computer_use_runtime = some "sandbox"
        ∧ ps.sandbox = some sb
        ∧ sb.booter = some "shipyard_neo"))
    ∧ (net = Except.error () → (loadNeoAvailability net mode0).neoEnabled = false)
    ∧ ((loadNeoAvailability net mode0).mode = "neo" →
        (loadNeoAvailability net mode0).neoEnabled = true)
    ∧ ((loadNeoAvailability net mode0).neoEnabled = false → mode0 = "neo" →
        (loadNeoAvailability net mode0).mode = "local")
    ∧ ((loadNeoAvailability net mode0).neoEnabled = true →
        (loadNeoAvailability net mode0).mode = mode0) := by
  have hmode : (loadNeoAvailability net mode0).mode
      = (if !(loadNeoAvailability net mode0).neoEnabled && mode0 == "neo" then "local"
         else mode0) := by
    cases net <;> rfl
  refine ⟨?_, ?_, ?_, ?_, ?_⟩
  · exact loadNeoAvailability_enabled_char net mode0
  · intro h
    subst h
    rfl
  · intro h
    cases he : (loadNeoAvailability net mode0).neoEnabled with
    | true => rfl
    | false =>
      rw [hmode, he] at h
      by_cases hm : mode0 == "neo"
      · simp [hm] at h
      · simp [hm] at h
        exact absurd (by simp [h]) hm
  · intro he hm
    rw [hmode, he, hm]
    simp
  · intro he
    rw [hmode, he]
    simp
